import Mathlib

/-!
Shallow embedding of `docto_alert_on_new_slot.py` (doctoshotgun slot-alert
client) and proofs about its behaviour.

Network effects are modelled by passing the scripted server responses and the
scripted interactive stdin lines explicitly; file-system effects by an
`Option String` holding the state file's content.  Python `int` values are
embedded as `Int`, JSON dictionaries as explicit structures, and absence of a
JSON key as `Option`.
-/

set_option linter.unusedVariables false

namespace Doctoshotgun

/-- One entry of the `availabilities` list of a response of
`GET /availabilities.json`: a per-agenda slot group carrying a `slots` list. -/
structure SlotGroup where
  slots : List String
  deriving Repr, DecidableEq

/-- One response of `GET /availabilities.json`.  `next_slot` is `none` when the
key is absent (a JSON-null `next_slot` also ends the loop and is likewise
modelled as `none`). -/
structure AvailResponse where
  next_slot : Option String
  availabilities : List SlotGroup
  message : Option String
  deriving Repr, DecidableEq

/-- The query parameters of one request to `GET /availabilities.json`, as
assembled in `Doctolib.has_availability`. -/
structure AvailQuery where
  start_date : String
  visit_motive_ids : Int
  agenda_ids : String
  insurance_sector : String
  practice_ids : Int
  destroy_temporary : String
  limit : Nat
  deriving Repr, DecidableEq

/-- The fixed parameter shape of an availability query (source lines 212-219). -/
def mkAvailQuery (date : String) (mid : Int) (aid : String) (pid : Int) : AvailQuery :=
  { start_date := date, visit_motive_ids := mid, agenda_ids := aid,
    insurance_sector := "public", practice_ids := pid,
    destroy_temporary := "true", limit := 3 }

/-- The final availability decision of `Doctolib.has_availability`
(source lines 226-231): `if not availabilities or not any(a['slots'] for a in
availabilities): return False ... return True`. -/
def availabilityDecision (availabilities : List SlotGroup) : Bool :=
  if availabilities.isEmpty || !(availabilities.any fun a => !a.slots.isEmpty) then
    false
  else
    true

/-- The `next_slot`-chasing query loop of `Doctolib.has_availability`
(source lines 210-223).  The server is modelled by the script `responses`:
each issued query consumes the next response.  Returns the queries issued in
order and the last response received (`none` when the script ran out while the
loop still wanted to query, i.e. the transport would have failed). -/
def pollLoop (mid : Int) (aid : String) (pid : Int) :
    String → List AvailResponse → List AvailQuery × Option AvailResponse
  | date, [] => ([mkAvailQuery date mid aid pid], none)
  | date, r :: rs =>
    match r.next_slot with
    | none => ([mkAvailQuery date mid aid pid], some r)
    | some d2 =>
      let rest := pollLoop mid aid pid d2 rs
      (mkAvailQuery date mid aid pid :: rest.1, rest.2)

/-- An agenda object of the booking page (`data.agendas[]`). -/
structure Agenda where
  id : Int
  visit_motive_ids : List Int
  booking_disabled : Bool
  practice_id : Int
  deriving Repr, DecidableEq

/-- Python truthiness of an optional integer: `None` and `0` are falsy. -/
def pyTruthy : Option Int → Bool
  | none => false
  | some n => n != 0

/-- `DoctorBookingPage.get_agenda_ids` (source lines 72-80): keep the agendas
listing the motive id, not booking-disabled and, when `practice_id` is truthy,
matching that practice; return their ids as strings, in order. -/
def get_agenda_ids (agendas : List Agenda) (motive_id : Int)
    (practice_id : Option Int) : List String :=
  (agendas.filter fun a =>
      a.visit_motive_ids.contains motive_id &&
      !a.booking_disabled &&
      (!pyTruthy practice_id || practice_id == some a.practice_id)).map
    fun a => toString a.id

/-- A place object of the booking page (`data.places[]`). -/
structure Place where
  practice_ids : List Int
  deriving Repr, DecidableEq

/-- A visit motive of the booking page (`data.visit_motives[]`). -/
structure Motive where
  id : Int
  name : String
  deriving Repr, DecidableEq

/-- The decoded booking page (`GET /booking/{doctorId}.json`). -/
structure BookingData where
  places : List Place
  agendas : List Agenda
  profile_id : Int
  visit_motives : List Motive
  deriving Repr, DecidableEq

/-- `DoctorBookingPage.get_practice` (source lines 69-70):
`doc['data']['places'][0]['practice_ids'][0]`.  `none` models the unguarded
`IndexError` raised when either list is empty. -/
def get_practice (d : BookingData) : Option Int :=
  match d.places.head? with
  | none => none
  | some p => p.practice_ids.head?

/-- Python `str.strip()` on a char list: drop leading and trailing whitespace. -/
def pyStrip (cs : List Char) : List Char :=
  ((cs.dropWhile Char.isWhitespace).reverse.dropWhile Char.isWhitespace).reverse

/-- Python `int(s.strip())` on ASCII decimal input: optional sign then one or
more digits; `none` models the `ValueError`. -/
def pyParseInt (s : String) : Option Int :=
  let digits : List Char → Option Nat := fun cs =>
    if cs.isEmpty then none
    else if cs.all Char.isDigit then
      some (cs.foldl (fun acc c => 10 * acc + (c.toNat - 48)) 0)
    else none
  match pyStrip s.data with
  | [] => none
  | c :: rest =>
    if c = '-' then (digits rest).map fun n => -(n : Int)
    else if c = '+' then (digits rest).map fun n => (n : Int)
    else (digits (c :: rest)).map fun n => (n : Int)

/-- Python list subscription `xs[i]`: negative indices count from the end;
`none` models the `IndexError`. -/
def pyIndex {α : Type} (xs : List α) (i : Int) : Option α :=
  if 0 ≤ i then xs.get? i.toNat
  else if 0 ≤ (xs.length : Int) + i then xs.get? ((xs.length : Int) + i).toNat
  else none

/-- Outcome of the motive-selection block of `Doctolib.has_availability`
(source lines 189-206). -/
inductive MotiveSel where
  | noMotives
  | selected (id : Int)
  | exhausted
  deriving Repr, DecidableEq

/-- The interactive `while True` prompt of the motive selection (source lines
199-206): read a line, `int()` it, subscript `visit_motives`; on `ValueError`
or `IndexError` prompt again; stdin is modelled by the script `inputs`, and
running out of script (`exhausted`) models the loop spinning forever on a
closed stdin. -/
def chooseMotiveLoop (visit_motives : List Motive) : List String → MotiveSel
  | [] => .exhausted
  | s :: rest =>
    match pyParseInt s with
    | none => chooseMotiveLoop visit_motives rest
    | some i =>
      match pyIndex visit_motives i with
      | none => chooseMotiveLoop visit_motives rest
      | some m => .selected m.id

/-- The whole motive-selection block (source lines 189-206): a truthy
`args.motive_id` short-circuits; otherwise zero motives raise, a single motive
auto-selects, several motives go through the interactive prompt. -/
def selectMotive (motive_id : Option Int) (visit_motives : List Motive)
    (inputs : List String) : MotiveSel :=
  if pyTruthy motive_id then .selected (motive_id.getD 0)
  else
    match visit_motives with
    | [] => .noMotives
    | [m] => .selected m.id
    | _ => chooseMotiveLoop visit_motives inputs

/-- The parsed CLI arguments that `has_availability` reads and mutates. -/
structure Args where
  motive_id : Option Int
  doctor_id : String
  deriving Repr, DecidableEq

/-- Outcome of one `Doctolib.has_availability` call. -/
inductive HAOutcome where
  | raisedIndexError
  | raisedNoMotives
  | blockedOnInput
  | transportExhausted
  | done (result : Bool)
  deriving Repr, DecidableEq

/-- `Doctolib.has_availability` (source lines 185-231): fetch the booking page
(`doc`), read profile and first practice id, resolve the motive (possibly
mutating `args`), compute the agenda ids, then run the `next_slot` query chain
and decide on the last response.  Returns the mutated `args`, the availability
queries issued, and the outcome. -/
def has_availability (args : Args) (doc : BookingData) (inputs : List String)
    (responses : List AvailResponse) (start_date : String) :
    Args × List AvailQuery × HAOutcome :=
  match get_practice doc with
  | none => (args, [], .raisedIndexError)
  | some practice_id =>
    match selectMotive args.motive_id doc.visit_motives inputs with
    | .noMotives => (args, [], .raisedNoMotives)
    | .exhausted => (args, [], .blockedOnInput)
    | .selected mid =>
      let args2 : Args := { args with motive_id := some mid }
      let agenda_ids := get_agenda_ids doc.agendas mid (some practice_id)
      let pr := pollLoop mid (String.intercalate "-" agenda_ids) practice_id
        start_date responses
      match pr.2 with
      | none => (args2, pr.1, .transportExhausted)
      | some last => (args2, pr.1, .done (availabilityDecision last.availabilities))

/-- Replace the `message` field of a response (used to state that messages are
irrelevant to the availability decision). -/
def setMsg (m : Option String) (r : AvailResponse) : AvailResponse :=
  { r with message := m }

/-- The network/terminal environment one `Doctolib.do_login` call runs in:
which requests fail, the `redirection` field of the login response, whether a
terminal is attached, and the auth code typed by the operator. -/
structure LoginEnv where
  sessionsNewServerError : Bool
  loginClientError : Bool
  redirection : String
  isatty : Bool
  authCodeInput : String
  challengeNotFound : Bool
  deriving Repr, DecidableEq

/-- The requests `do_login` can issue, in order of appearance in the source. -/
inductive LoginReq where
  | getSessionsNew
  | postLogin
  | postSendAuthCode (two_factor_auth_method : String)
  | postChallenge (auth_code : String) (two_factor_auth_method : String)
  deriving Repr, DecidableEq

/-- How a `do_login` call ends: re-raising the pre-login `ServerError`, or
returning a boolean. -/
inductive LoginResult where
  | raisedServerError
  | returned (b : Bool)
  deriving Repr, DecidableEq

/-- `Doctolib.do_login` (source lines 135-171): GET the session page (a
`ServerError` is logged and re-raised), POST the credentials (a `ClientError`
prints and returns `False`), then if the response redirects to
`/sessions/two-factor`: without a tty print a diagnostic and return `False`
before any further request; with a tty request the auth code by email, prompt,
and submit it, returning `False` on `HTTPNotFound` without retrying.  Returns
the requests issued, in order, and the result. -/
def do_login (env : LoginEnv) : List LoginReq × LoginResult :=
  if env.sessionsNewServerError then
    ([.getSessionsNew], .raisedServerError)
  else if env.loginClientError then
    ([.getSessionsNew, .postLogin], .returned false)
  else if env.redirection = "/sessions/two-factor" then
    if !env.isatty then
      ([.getSessionsNew, .postLogin], .returned false)
    else if env.challengeNotFound then
      ([.getSessionsNew, .postLogin, .postSendAuthCode "email",
        .postChallenge env.authCodeInput "email"], .returned false)
    else
      ([.getSessionsNew, .postLogin, .postSendAuthCode "email",
        .postChallenge env.authCodeInput "email"], .returned true)
  else
    ([.getSessionsNew, .postLogin], .returned true)

/-- A patient record from `GET /account/master_patients.json`. -/
structure Patient where
  first_name : String
  last_name : String
  deriving Repr, DecidableEq

/-- The generic interactive index-selection loop (used for patients, source
lines 311-319): read a line, `int()` it, subscript the option list; on
`ValueError` or `IndexError` prompt again; `none` models stdin running out
while the loop keeps re-prompting. -/
def chooseIndexLoop {α : Type} (options : List α) : List String → Option α
  | [] => none
  | s :: rest =>
    match pyParseInt s with
    | none => chooseIndexLoop options rest
    | some i =>
      match pyIndex options i with
      | none => chooseIndexLoop options rest
      | some x => some x

/-- Left-pad a digit string with zeros to width `w`. -/
def padZeros (cs : List Char) (w : Nat) : List Char :=
  List.replicate (w - cs.length) '0' ++ cs

/-- Digit-list value, most significant first. -/
def parseNatChars (cs : List Char) : Nat :=
  cs.foldl (fun acc c => 10 * acc + (c.toNat - 48)) 0

/-- Model of `datetime.datetime.strptime(s, '%d/%m/%Y').date()` followed by
`strftime('%Y-%m-%d')` (source lines 210 and 325): accept `D/M/Y` with numeric
components, day in 1..31 and month in 1..12, and reformat as zero-padded
`YYYY-MM-DD`; `none` models the `ValueError` (the day-fits-the-month check of
`datetime` is not modelled; no claim depends on it). -/
def parseStartDate (s : String) : Option String :=
  match s.data.splitOn '/' with
  | [d, m, y] =>
    if d.isEmpty || m.isEmpty || y.isEmpty then none
    else if d.all Char.isDigit && m.all Char.isDigit && y.all Char.isDigit then
      let dn := parseNatChars d
      let mn := parseNatChars m
      if 1 ≤ dn && dn ≤ 31 && 1 ≤ mn && mn ≤ 12 then
        some (String.mk (padZeros y 4 ++ '-' :: padZeros m 2 ++ '-' :: padZeros d 2))
      else none
    else none
  | _ => none

/-- Status of the outer polling loop of `Application.main` (source line 335):
`while not docto.has_availability(args, start_date): sleep(5)`. -/
inductive PollStatus where
  | found
  | errNoMotives
  | errIndex
  | inputSpin
  | scriptOut
  deriving Repr, DecidableEq

/-- The outer polling loop: every iteration calls `has_availability`, which
starts by fetching the booking page again; `pollDocs` scripts, per iteration,
the booking page served and the availability responses.  Returns the mutated
`args`, the number of booking-page fetches performed (one per executed
iteration), and how the loop ended (`scriptOut` when the script ran out while
the loop would have kept going). -/
def pollIterations (inputs : List String) (sd : String) :
    Args → List (BookingData × List AvailResponse) → Args × Nat × PollStatus
  | args, [] => (args, 0, .scriptOut)
  | args, (doc, script) :: rest =>
    match has_availability args doc inputs script sd with
    | (a2, _, .done true) => (a2, 1, .found)
    | (a2, _, .done false) =>
      let r := pollIterations inputs sd a2 rest
      (r.1, r.2.1 + 1, r.2.2)
    | (a2, _, .raisedNoMotives) => (a2, 1, .errNoMotives)
    | (a2, _, .raisedIndexError) => (a2, 1, .errIndex)
    | (a2, _, .blockedOnInput) => (a2, 1, .inputSpin)
    | (a2, _, .transportExhausted) => (a2, 1, .scriptOut)

/-- Everything one `Application.main` run consumes: the login environment, the
patient list and the stdin script for patient selection, the `--start-date`
argument, today's date (already `YYYY-MM-DD`), the initial parsed args, the
stdin script for motive selection, the scripted poll iterations, and whether
the operator eventually interrupts the notify loop. -/
structure MainEnv where
  login : LoginEnv
  patients : List Patient
  patientInputs : List String
  start_date_arg : Option String
  today : String
  args0 : Args
  motiveInputs : List String
  pollDocs : List (BookingData × List AvailResponse)
  interrupted : Bool
  deriving Repr, DecidableEq

/-- The exceptions that can propagate out of the `try` block of `main`. -/
inductive RunError where
  | loginServerError
  | noMotives
  | practiceIndexError
  | keyboardInterrupt
  deriving Repr, DecidableEq

/-- How the `try` block of `Application.main` ends.  `diverges` is a genuine
infinite loop of the source (stdin exhausted while re-prompting, or the
uninterrupted notify loop); `notModelled` means a finite script of this model
ran out while the source would have kept running. -/
inductive BodyOutcome where
  | exitCode (n : Nat)
  | raised (e : RunError)
  | diverges
  | notModelled
  deriving Repr, DecidableEq

/-- Whether a body outcome actually leaves the `try` block (so that the
`finally` clause runs). -/
def BodyOutcome.exits : BodyOutcome → Bool
  | .exitCode _ => true
  | .raised _ => true
  | .diverges => false
  | .notModelled => false

/-- The `try` block of `Application.main` (source lines 298-339): login (a
`False` return exits with code 1), fetch patients (zero exits with code 1,
several prompt, one auto-binds), resolve the start date (an invalid
`--start-date` exits with code 1), then poll until availability and ding
forever. -/
def mainBody (env : MainEnv) : BodyOutcome :=
  match (do_login env.login).2 with
  | .raisedServerError => .raised .loginServerError
  | .returned false => .exitCode 1
  | .returned true =>
    if env.patients.length = 0 then .exitCode 1
    else
      let patientSel : Option Patient :=
        if env.patients.length > 1 then chooseIndexLoop env.patients env.patientInputs
        else env.patients.head?
      match patientSel with
      | none => .diverges
      | some _ =>
        match (match env.start_date_arg with
               | some s => parseStartDate s
               | none => some env.today) with
        | none => .exitCode 1
        | some sd =>
          match (pollIterations env.motiveInputs sd env.args0 env.pollDocs).2.2 with
          | .found => if env.interrupted then .raised .keyboardInterrupt else .diverges
          | .errNoMotives => .raised .noMotives
          | .errIndex => .raised .practiceIndexError
          | .inputSpin => .diverges
          | .scriptOut => .notModelled

/-- Result of a whole `Application.main` run: the body outcome plus how many
times the session state was saved to the state file. -/
structure MainResult where
  outcome : BodyOutcome
  stateSaves : Nat
  deriving Repr, DecidableEq

/-- `Application.main` (source lines 272-341): the body runs inside
`try ... finally: self.save_state(docto.dump_state())`, so the state is saved
exactly once whenever the body leaves the `try` block, and not at all if the
body never terminates. -/
def mainRun (env : MainEnv) : MainResult :=
  let b := mainBody env
  { outcome := b, stateSaves := if b.exits then 1 else 0 }

/-- A JSON value as produced and consumed by `json.dump` / `json.load` for the
session-state blob (floats never occur in a state blob, so numbers are
integers). -/
inductive Json where
  | null
  | bool (b : Bool)
  | num (n : Int)
  | str (s : String)
  | arr (elems : List Json)
  | obj (members : List (String × Json))
  deriving Repr

/-- The double-quote character. -/
def quoteChar : Char := Char.ofNat 34

/-- The backslash character. -/
def backslashChar : Char := Char.ofNat 92

/-- The opening-brace character. -/
def lbraceChar : Char := Char.ofNat 123

/-- The closing-brace character. -/
def rbraceChar : Char := Char.ofNat 125

/-- JSON string escaping of one character (quotes and backslashes). -/
def escapeChar (c : Char) : List Char :=
  if c = quoteChar then [backslashChar, quoteChar]
  else if c = backslashChar then [backslashChar, backslashChar]
  else [c]

/-- Serialize a JSON string, quotes included. -/
def printString (s : String) : List Char :=
  quoteChar :: (s.data.flatMap escapeChar ++ [quoteChar])

/-- The decimal digit characters. -/
def digitChar : Nat → Char
  | 0 => '0'
  | 1 => '1'
  | 2 => '2'
  | 3 => '3'
  | 4 => '4'
  | 5 => '5'
  | 6 => '6'
  | 7 => '7'
  | 8 => '8'
  | _ => '9'

/-- Decimal digits of a positive number, least significant first. -/
def natDigitsRev : Nat → List Char
  | 0 => []
  | n + 1 => digitChar ((n + 1) % 10) :: natDigitsRev ((n + 1) / 10)
decreasing_by exact Nat.div_lt_self (Nat.succ_pos n) (by omega)

/-- Decimal representation of a natural number. -/
def printNat (n : Nat) : List Char :=
  if n = 0 then ['0'] else (natDigitsRev n).reverse

/-- Decimal representation of an integer. -/
def printInt (n : Int) : List Char :=
  if n < 0 then '-' :: printNat (-n).toNat else printNat n.toNat

mutual

/-- Compact serialization of a JSON value (what `json.dump` writes, modulo the
blank after separators, which `json.load` ignores anyway). -/
def printJson : Json → List Char
  | .null => "null".data
  | .bool true => "true".data
  | .bool false => "false".data
  | .num n => printInt n
  | .str s => printString s
  | .arr es => '[' :: (printElems es ++ [']'])
  | .obj ms => lbraceChar :: (printMembers ms ++ [rbraceChar])

/-- Serialize array elements, comma separated. -/
def printElems : List Json → List Char
  | [] => []
  | j :: js => printJson j ++ printElemsRest js

/-- Serialize the remaining array elements, each preceded by a comma. -/
def printElemsRest : List Json → List Char
  | [] => []
  | j :: js => ',' :: (printJson j ++ printElemsRest js)

/-- Serialize one object member. -/
def printMember : String × Json → List Char
  | (k, v) => printString k ++ ':' :: printJson v

/-- Serialize object members, comma separated. -/
def printMembers : List (String × Json) → List Char
  | [] => []
  | m :: ms => printMember m ++ printMembersRest ms

/-- Serialize the remaining object members, each preceded by a comma. -/
def printMembersRest : List (String × Json) → List Char
  | [] => []
  | m :: ms => ',' :: (printMember m ++ printMembersRest ms)

end

/-- Parse the body of a JSON string after the opening quote, up to and past
the closing quote; returns the decoded characters and the rest of the input. -/
def parseStringChars : List Char → Option (List Char × List Char)
  | [] => none
  | c :: rest =>
    if c = quoteChar then some ([], rest)
    else if c = backslashChar then
      match rest with
      | [] => none
      | e :: rest2 =>
        if e = quoteChar || e = backslashChar then
          match parseStringChars rest2 with
          | none => none
          | some (cs, rem) => some (e :: cs, rem)
        else none
    else
      match parseStringChars rest with
      | none => none
      | some (cs, rem) => some (c :: cs, rem)

/-- Parse a decimal integer (optional minus sign, maximal digit run). -/
def parseNumber (input : List Char) : Option (Int × List Char) :=
  match input with
  | [] => none
  | c :: rest =>
    if c = '-' then
      let ds := rest.takeWhile Char.isDigit
      if ds.isEmpty then none
      else some (-(parseNatChars ds : Int), rest.dropWhile Char.isDigit)
    else
      let ds := input.takeWhile Char.isDigit
      if ds.isEmpty then none
      else some ((parseNatChars ds : Int), input.dropWhile Char.isDigit)

/-- The input does not start with a decimal digit (so a maximal digit run
ending right before it is parsed back to the same number). -/
def noDigitHead (cs : List Char) : Prop :=
  ∀ c, cs.head? = some c → c.isDigit = false

mutual

/-- Fuel-bounded recursive-descent parser for one JSON value; returns the
value and the unconsumed input. -/
def parseValue : Nat → List Char → Option (Json × List Char)
  | 0, _ => none
  | fuel + 1, input =>
    match input with
    | [] => none
    | c :: rest =>
      if c = 'n' then
        match rest with
        | 'u' :: 'l' :: 'l' :: rem => some (.null, rem)
        | _ => none
      else if c = 't' then
        match rest with
        | 'r' :: 'u' :: 'e' :: rem => some (.bool true, rem)
        | _ => none
      else if c = 'f' then
        match rest with
        | 'a' :: 'l' :: 's' :: 'e' :: rem => some (.bool false, rem)
        | _ => none
      else if c = quoteChar then
        match parseStringChars rest with
        | none => none
        | some (cs, rem) => some (.str (String.mk cs), rem)
      else if c = '[' then
        match rest with
        | ']' :: rem => some (.arr [], rem)
        | _ =>
          match parseElems fuel rest with
          | none => none
          | some (es, rem) => some (.arr es, rem)
      else if c = lbraceChar then
        match rest with
        | [] => none
        | r :: rem2 =>
          if r = rbraceChar then some (.obj [], rem2)
          else
            match parseMembers fuel rest with
            | none => none
            | some (ms, rem) => some (.obj ms, rem)
      else
        match parseNumber input with
        | none => none
        | some (n, rem) => some (.num n, rem)

/-- Parse one or more comma-separated array elements and the closing bracket. -/
def parseElems : Nat → List Char → Option (List Json × List Char)
  | 0, _ => none
  | fuel + 1, input =>
    match parseValue fuel input with
    | none => none
    | some (j, rem) =>
      match rem with
      | ',' :: rem2 =>
        match parseElems fuel rem2 with
        | none => none
        | some (es, rem3) => some (j :: es, rem3)
      | ']' :: rem2 => some ([j], rem2)
      | _ => none

/-- Parse one or more comma-separated object members and the closing brace. -/
def parseMembers : Nat → List Char → Option (List (String × Json) × List Char)
  | 0, _ => none
  | fuel + 1, input =>
    match input with
    | [] => none
    | c :: rest =>
      if c = quoteChar then
        match parseStringChars rest with
        | none => none
        | some (k, rem) =>
          match rem with
          | ':' :: rem2 =>
            match parseValue fuel rem2 with
            | none => none
            | some (v, rem3) =>
              match rem3 with
              | ',' :: rem4 =>
                match parseMembers fuel rem4 with
                | none => none
                | some (ms, rem5) => some ((String.mk k, v) :: ms, rem5)
              | r :: rem4 =>
                if r = rbraceChar then some ([(String.mk k, v)], rem4) else none
              | [] => none
          | _ => none
      else none

end

mutual

/-- Parser fuel sufficient for a value (one unit per node and list step). -/
def jsonFuel : Json → Nat
  | .null => 1
  | .bool _ => 1
  | .num _ => 1
  | .str _ => 1
  | .arr es => 1 + elemsFuel es
  | .obj ms => 1 + membersFuel ms

/-- Parser fuel sufficient for an element list. -/
def elemsFuel : List Json → Nat
  | [] => 1
  | j :: js => 1 + jsonFuel j + elemsFuel js

/-- Parser fuel sufficient for a member list. -/
def membersFuel : List (String × Json) → Nat
  | [] => 1
  | m :: ms => 1 + jsonFuel m.2 + membersFuel ms

end

/-- Serialize a JSON value to a string (`json.dump`). -/
def printJsonStr (j : Json) : String :=
  String.mk (printJson j)

/-- Parse a string as one JSON document (`json.load`); `none` models the
`JSONDecodeError`. -/
def parseJsonStr (s : String) : Option Json :=
  match parseValue (2 * s.data.length + 2) s.data with
  | some (j, []) => some j
  | _ => none

/-- `Application.save_state` (source lines 266-270): overwrite the state file
with the serialized blob.  The file system is modelled by the optional content
of the state file. -/
def save_state (fs : Option String) (state : Json) : Option String :=
  some (printJsonStr state)

/-- `Application.load_state` (source lines 257-264): a missing file (`IOError`)
yields the empty state `{}`; otherwise the content is parsed (`none` models
the uncaught `JSONDecodeError` on a corrupt file). -/
def load_state (fs : Option String) : Option Json :=
  match fs with
  | none => some (.obj [])
  | some txt => parseJsonStr txt

/-- The agenda-qualification predicate in the words of the (amended) spec: the
agenda lists the motive id, is not booking-disabled, and — unless the practice
id is absent or zero — carries exactly the given practice id. -/
def agendaQualifiesSpec (motive_id : Int) (practice_id : Option Int) (a : Agenda) : Bool :=
  decide (motive_id ∈ a.visit_motive_ids) && !a.booking_disabled &&
    (decide (practice_id = none) || decide (practice_id = some 0) ||
      decide (practice_id = some a.practice_id))

/-- The booking page of the spec's end-to-end scenario: one motive (id 9) and
two agendas for it, one of them booking-disabled, all under practice 42. -/
def sampleDoc : BookingData :=
  { places := [{ practice_ids := [42] }],
    agendas := [{ id := 101, visit_motive_ids := [9], booking_disabled := false, practice_id := 42 },
                { id := 102, visit_motive_ids := [9], booking_disabled := true, practice_id := 42 }],
    profile_id := 1,
    visit_motives := [{ id := 9, name := "Consultation" }] }

theorem setMsg_next_slot (m : Option String) (r : AvailResponse) :
    (setMsg m r).next_slot = r.next_slot := rfl

theorem setMsg_availabilities (m : Option String) (r : AvailResponse) :
    (setMsg m r).availabilities = r.availabilities := rfl

theorem pollLoop_map_setMsg (mid : Int) (aid : String) (pid : Int) (m : Option String) :
    ∀ (d : String) (rs : List AvailResponse),
      pollLoop mid aid pid d (rs.map (setMsg m)) =
        ((pollLoop mid aid pid d rs).1, (pollLoop mid aid pid d rs).2.map (setMsg m))
  | d, [] => by simp [pollLoop]
  | d, r :: rs => by
    cases h : r.next_slot with
    | none => simp [pollLoop, setMsg_next_slot, h]
    | some d2 =>
      simp [pollLoop, setMsg_next_slot, h, pollLoop_map_setMsg mid aid pid m d2 rs]

theorem has_availability_map_setMsg (args : Args) (doc : BookingData)
    (inputs : List String) (responses : List AvailResponse) (sd : String)
    (m : Option String) :
    has_availability args doc inputs (responses.map (setMsg m)) sd =
      has_availability args doc inputs responses sd := by
  unfold has_availability
  cases get_practice doc with
  | none => rfl
  | some pid =>
    cases selectMotive args.motive_id doc.visit_motives inputs with
    | noMotives => rfl
    | exhausted => rfl
    | selected mid =>
      simp only [pollLoop_map_setMsg]
      cases (pollLoop mid
          (String.intercalate "-" (get_agenda_ids doc.agendas mid (some pid))) pid sd
          responses).2 with
      | none => rfl
      | some last => simp [setMsg_availabilities]

/-- C2: the availability decision on the final response is true iff its
`availabilities` list is non-empty and at least one entry has a non-empty
`slots` list; `availabilities = []` and `[⟨[]⟩]` give false while
`[⟨[]⟩, ⟨[s]⟩]` gives true; and the `message` field of the responses never
affects the outcome of `has_availability`. -/
theorem c2_availability_decision (av : List SlotGroup) :
    (availabilityDecision av = true ↔ av ≠ [] ∧ ∃ a ∈ av, a.slots ≠ []) ∧
    availabilityDecision [] = false ∧
    availabilityDecision [⟨[]⟩] = false ∧
    (∀ s : String, availabilityDecision [⟨[]⟩, ⟨[s]⟩] = true) ∧
    (∀ (args : Args) (doc : BookingData) (inputs : List String)
        (responses : List AvailResponse) (sd : String) (m : Option String),
      has_availability args doc inputs (responses.map (setMsg m)) sd =
        has_availability args doc inputs responses sd) := by
  refine ⟨?_, by decide, by decide, fun s => by simp [availabilityDecision],
    fun args doc inputs responses sd m =>
      has_availability_map_setMsg args doc inputs responses sd m⟩
  have hd : availabilityDecision av = (!av.isEmpty && av.any fun a => !a.slots.isEmpty) := by
    unfold availabilityDecision
    cases h1 : av.isEmpty <;> cases h2 : av.any fun a => !a.slots.isEmpty <;> simp [h1, h2]
  rw [hd]
  constructor
  · intro h
    rw [Bool.and_eq_true] at h
    obtain ⟨h1, h2⟩ := h
    obtain ⟨a, ha, hs⟩ := List.any_eq_true.mp h2
    refine ⟨?_, a, ha, ?_⟩
    · intro hav
      rw [hav] at h1
      simp at h1
    · intro hnil
      rw [hnil] at hs
      simp at hs
  · rintro ⟨h1, a, ha, hs⟩
    rw [Bool.and_eq_true]
    refine ⟨?_, List.any_eq_true.mpr ⟨a, ha, ?_⟩⟩
    · cases av with
      | nil => exact absurd rfl h1
      | cons x xs => rfl
    · cases hsl : a.slots with
      | nil => exact absurd hsl hs
      | cons y ys => rfl

theorem pollLoop_head (mid : Int) (aid : String) (pid : Int) (d : String)
    (rs : List AvailResponse) :
    (pollLoop mid aid pid d rs).1.head? = some (mkAvailQuery d mid aid pid) := by
  cases rs with
  | nil => rfl
  | cons r rest =>
    unfold pollLoop
    cases r.next_slot <;> rfl

/-- C1: each availability query is issued with the current date; a response
carrying `next_slot` makes that date the next query's start date and the loop
continues; a response without `next_slot` ends the loop right after that
query, and the decision is computed from that last response alone.  In the
end-to-end scenario (`next_slot: 2024-01-08, no slots` then `slots: [X]`,
starting 2024-01-01) exactly 2 queries are made, the second with start date
2024-01-08, and the result is true. -/
theorem c1_next_slot_chaining (mid : Int) (aid : String) (pid : Int)
    (d : String) (r : AvailResponse) (rs : List AvailResponse) :
    ((pollLoop mid aid pid d (r :: rs)).1.head? = some (mkAvailQuery d mid aid pid)) ∧
    (r.next_slot = none →
      pollLoop mid aid pid d (r :: rs) = ([mkAvailQuery d mid aid pid], some r)) ∧
    (∀ d2, r.next_slot = some d2 →
      pollLoop mid aid pid d (r :: rs) =
        (mkAvailQuery d mid aid pid :: (pollLoop mid aid pid d2 rs).1,
          (pollLoop mid aid pid d2 rs).2)) ∧
    (∀ (a1 : List SlotGroup) (m1 : Option String) (d2 : String) (r2 : AvailResponse),
      r2.next_slot = none →
        has_availability ⟨none, "doc"⟩ sampleDoc [] [⟨some d2, a1, m1⟩, r2] "2024-01-01" =
          (⟨some 9, "doc"⟩,
            [mkAvailQuery "2024-01-01" 9 "101" 42, mkAvailQuery d2 9 "101" 42],
            .done (availabilityDecision r2.availabilities))) ∧
    (has_availability ⟨none, "doc"⟩ sampleDoc []
        [⟨some "2024-01-08", [], none⟩, ⟨none, [⟨["X"]⟩], none⟩] "2024-01-01" =
      (⟨some 9, "doc"⟩,
        [mkAvailQuery "2024-01-01" 9 "101" 42, mkAvailQuery "2024-01-08" 9 "101" 42],
        .done true)) := by
  refine ⟨pollLoop_head mid aid pid d (r :: rs), ?_, ?_, ?_, by decide⟩
  · intro h
    simp only [pollLoop, h]
  · intro d2 h
    simp only [pollLoop, h]
  · intro a1 m1 d2 r2 h
    have hpr : get_practice sampleDoc = some 42 := by decide
    have hsel : selectMotive (none : Option Int) sampleDoc.visit_motives [] =
        .selected 9 := by decide
    have haid : get_agenda_ids sampleDoc.agendas 9 (some 42) = ["101"] := by decide
    have hint : String.intercalate "-" ["101"] = "101" := by decide
    simp only [has_availability, hpr, hsel, haid, hint, pollLoop, h]

theorem c1_next_slot_chaining_witness :
    pollLoop 9 "101" 42 "2024-01-01" [⟨none, [⟨["X"]⟩], none⟩] =
      ([mkAvailQuery "2024-01-01" 9 "101" 42], some ⟨none, [⟨["X"]⟩], none⟩) :=
  (c1_next_slot_chaining 9 "101" 42 "2024-01-01" ⟨none, [⟨["X"]⟩], none⟩ []).2.1 rfl

/-- C3 counterexample: the claim demands that an agenda whose practice id
(here 5) differs from a given practice id (here 0) be excluded, but
`get_agenda_ids` — which mirrors Python's `not practice_id` — treats the falsy
practice id 0 as absent and returns the agenda anyway. -/
theorem c3_counterexample :
    get_agenda_ids [⟨7, [1], false, 5⟩] 1 (some 0) = ["7"] ∧ (5 : Int) ≠ 0 := by
  decide

/-- C3 (amended): `get_agenda_ids` returns exactly the agendas that list the
motive id, are not disabled, and — when a nonzero practice id is given — carry
that practice id; a practice id of zero (like an absent one) disables the
practice filter; agendas with the disabled flag set are excluded regardless of
motive or practice match. -/
theorem c3_agenda_filter (agendas : List Agenda) (motive_id : Int)
    (practice_id : Option Int) :
    (get_agenda_ids agendas motive_id practice_id =
      (agendas.filter (agendaQualifiesSpec motive_id practice_id)).map
        fun a => toString a.id) ∧
    (∀ a : Agenda, a.booking_disabled = true →
      agendaQualifiesSpec motive_id practice_id a = false) ∧
    (∀ p : Int, p ≠ 0 → ∀ a : Agenda,
      agendaQualifiesSpec motive_id (some p) a = true →
        a.practice_id = p ∧ motive_id ∈ a.visit_motive_ids ∧
          a.booking_disabled = false) := by
  refine ⟨?_, ?_, ?_⟩
  · unfold get_agenda_ids
    congr 1
    apply List.filter_congr
    intro a _
    unfold agendaQualifiesSpec pyTruthy
    cases practice_id with
    | none => simp [List.contains]
    | some p =>
      by_cases hp : p = 0
      · subst hp
        simp [List.contains]
      · by_cases hpa : p = a.practice_id
        · subst hpa
          simp [List.contains, hp]
        · simp [List.contains, hp, hpa, Ne.symm hpa]
  · intro a ha
    unfold agendaQualifiesSpec
    rw [ha]
    simp
  · intro p hp a hq
    unfold agendaQualifiesSpec at hq
    have h3 : decide (some p = (none : Option Int)) = false := by simp
    have h4 : decide ((some p : Option Int) = some 0) = false := by simp [hp]
    rw [h3, h4] at hq
    simp only [Bool.false_or, Bool.and_eq_true, decide_eq_true_eq,
      Bool.not_eq_true'] at hq
    obtain ⟨⟨hmem, hdis⟩, hpm⟩ := hq
    exact ⟨(Option.some_inj.mp hpm).symm, hmem, hdis⟩

theorem c3_agenda_filter_witness :
    agendaQualifiesSpec 1 (some 3) ⟨7, [1], true, 3⟩ = false :=
  (c3_agenda_filter [] 1 (some 3)).2.1 ⟨7, [1], true, 3⟩ rfl

theorem pyIndex_out_of_range {α : Type} (xs : List α) (i : Int)
    (h : i < -(xs.length : Int) ∨ (xs.length : Int) ≤ i) : pyIndex xs i = none := by
  unfold pyIndex
  rcases h with h | h
  · rw [if_neg (by omega), if_neg (by omega)]
  · rw [if_pos (by omega)]
    exact List.get?_eq_none.mpr (by omega)

theorem pyIndex_nonneg {α : Type} (xs : List α) (i : Int) (h0 : 0 ≤ i)
    (hm : i.toNat < xs.length) :
    pyIndex xs i = some (xs.get ⟨i.toNat, hm⟩) := by
  unfold pyIndex
  rw [if_pos h0]
  exact List.get?_eq_get hm

theorem pyIndex_neg {α : Type} (xs : List α) (i : Int)
    (h0 : -(xs.length : Int) ≤ i) (h1 : i < 0)
    (hm : ((xs.length : Int) + i).toNat < xs.length) :
    pyIndex xs i = some (xs.get ⟨((xs.length : Int) + i).toNat, hm⟩) := by
  unfold pyIndex
  rw [if_neg (by omega), if_pos (by omega)]
  exact List.get?_eq_get hm

/-- C4 counterexample: with two motives on offer, the interactive input `-1`
is a selection index outside `[0, 2)`, so per the claim it should be rejected
by re-prompting; instead the code's Python list subscript selects the last
motive (id 20). -/
theorem c4_counterexample :
    chooseMotiveLoop [⟨10, "a"⟩, ⟨20, "b"⟩] ["-1"] = .selected 20 ∧
    ((-1 : Int) < 0 ∨ (2 : Int) ≤ -1) ∧
    chooseMotiveLoop [⟨10, "a"⟩, ⟨20, "b"⟩] [] = .exhausted := by
  decide

/-- C4 (amended): zero motives raise an unrecoverable error; exactly one
motive is auto-selected; with several motives the operator is prompted, and
non-numeric input as well as any index outside `[-N, N)` is rejected by
re-prompting; an index in `[0, N)` selects that motive, while a negative index
in `[-N, -1]` selects counting from the end (Python list subscription). -/
theorem c4_motive_selection (visit_motives : List Motive) (inputs : List String)
    (s : String) (rest : List String) (i : Int) (m : Motive) :
    (selectMotive none [] inputs = .noMotives) ∧
    (selectMotive none [m] inputs = .selected m.id) ∧
    (pyParseInt s = none →
      chooseMotiveLoop visit_motives (s :: rest) = chooseMotiveLoop visit_motives rest) ∧
    (pyParseInt s = some i →
      (i < -(visit_motives.length : Int) ∨ (visit_motives.length : Int) ≤ i) →
      chooseMotiveLoop visit_motives (s :: rest) = chooseMotiveLoop visit_motives rest) ∧
    (pyParseInt s = some i → 0 ≤ i →
      ∀ hm : i.toNat < visit_motives.length,
        chooseMotiveLoop visit_motives (s :: rest) =
          .selected (visit_motives.get ⟨i.toNat, hm⟩).id) ∧
    (pyParseInt s = some i → -(visit_motives.length : Int) ≤ i → i < 0 →
      ∀ hm : ((visit_motives.length : Int) + i).toNat < visit_motives.length,
        chooseMotiveLoop visit_motives (s :: rest) =
          .selected (visit_motives.get ⟨((visit_motives.length : Int) + i).toNat, hm⟩).id) := by
  refine ⟨rfl, rfl, ?_, ?_, ?_, ?_⟩
  · intro hs
    simp only [chooseMotiveLoop, hs]
  · intro hs hrange
    simp only [chooseMotiveLoop, hs, pyIndex_out_of_range visit_motives i hrange]
  · intro hs h0 hm
    simp only [chooseMotiveLoop, hs, pyIndex_nonneg visit_motives i h0 hm]
  · intro hs h0 h1 hm
    simp only [chooseMotiveLoop, hs, pyIndex_neg visit_motives i h0 h1 hm]

theorem c4_motive_selection_witness :
    chooseMotiveLoop [⟨10, "a"⟩, ⟨20, "b"⟩] ["abc"] =
      chooseMotiveLoop [⟨10, "a"⟩, ⟨20, "b"⟩] [] :=
  (c4_motive_selection [⟨10, "a"⟩, ⟨20, "b"⟩] [] "abc" [] 0 ⟨10, "a"⟩).2.2.1 rfl

theorem has_availability_selected (args : Args) (doc : BookingData)
    (inputs : List String) (responses : List AvailResponse) (sd : String)
    (pid mid : Int) (hp : get_practice doc = some pid)
    (hm : selectMotive args.motive_id doc.visit_motives inputs = .selected mid) :
    has_availability args doc inputs responses sd =
      ({ args with motive_id := some mid },
        (pollLoop mid (String.intercalate "-"
            (get_agenda_ids doc.agendas mid (some pid))) pid sd responses).1,
        match (pollLoop mid (String.intercalate "-"
            (get_agenda_ids doc.agendas mid (some pid))) pid sd responses).2 with
        | none => HAOutcome.transportExhausted
        | some last => HAOutcome.done (availabilityDecision last.availabilities)) := by
  unfold has_availability
  rw [hp, hm]
  dsimp only
  cases (pollLoop mid (String.intercalate "-"
      (get_agenda_ids doc.agendas mid (some pid))) pid sd responses).2 <;> rfl

theorem pollLoop_query_params (mid : Int) (aid : String) (pid : Int) :
    ∀ (d : String) (rs : List AvailResponse),
      ∀ q ∈ (pollLoop mid aid pid d rs).1,
        q.visit_motive_ids = mid ∧ q.agenda_ids = aid ∧ q.practice_ids = pid
  | d, [] => by
    intro q hq
    simp only [pollLoop, List.mem_singleton] at hq
    subst hq
    exact ⟨rfl, rfl, rfl⟩
  | d, r :: rs => by
    intro q hq
    cases h : r.next_slot with
    | none =>
      simp only [pollLoop, h, List.mem_singleton] at hq
      subst hq
      exact ⟨rfl, rfl, rfl⟩
    | some d2 =>
      simp only [pollLoop, h, List.mem_cons] at hq
      rcases hq with h1 | h1
      · subst h1
        exact ⟨rfl, rfl, rfl⟩
      · exact pollLoop_query_params mid aid pid d2 rs q h1

/-- C10: the practice id is always `data.places[0].practice_ids[0]`; when
`places` or its first entry's `practice_ids` is empty the lookup raises an
unguarded `IndexError` before any query is issued; and when it succeeds, every
availability query carries that practice id, which is also the practice id the
agenda filter ran with. -/
theorem c10_first_practice (args : Args) (doc : BookingData) (inputs : List String)
    (responses : List AvailResponse) (sd : String) :
    (get_practice doc = doc.places.head?.bind fun p => p.practice_ids.head?) ∧
    (get_practice doc = none →
      has_availability args doc inputs responses sd = (args, [], .raisedIndexError)) ∧
    (∀ pid : Int, get_practice doc = some pid →
      ∀ q ∈ (has_availability args doc inputs responses sd).2.1,
        q.practice_ids = pid ∧
        q.agenda_ids = String.intercalate "-"
          (get_agenda_ids doc.agendas q.visit_motive_ids (some pid))) := by
  refine ⟨?_, ?_, ?_⟩
  · unfold get_practice
    cases doc.places.head? <;> rfl
  · intro h
    unfold has_availability
    rw [h]
  · intro pid hp q hq
    cases hsel : selectMotive args.motive_id doc.visit_motives inputs with
    | noMotives =>
      rw [has_availability] at hq
      rw [hp, hsel] at hq
      simp at hq
    | exhausted =>
      rw [has_availability] at hq
      rw [hp, hsel] at hq
      simp at hq
    | selected mid =>
      rw [has_availability_selected args doc inputs responses sd pid mid hp hsel] at hq
      simp only at hq
      obtain ⟨hv, ha, hpd⟩ := pollLoop_query_params mid
        (String.intercalate "-" (get_agenda_ids doc.agendas mid (some pid))) pid
        sd responses q hq
      exact ⟨hpd, by rw [ha, hv]⟩

theorem c10_first_practice_witness :
    has_availability ⟨none, "doc"⟩ ⟨[], [], 1, []⟩ [] [] "2024-01-01" =
      (⟨none, "doc"⟩, [], .raisedIndexError) :=
  (c10_first_practice ⟨none, "doc"⟩ ⟨[], [], 1, []⟩ [] [] "2024-01-01").2.1 rfl

/-- C5: when the login response redirects to the two-factor path, then with no
interactive terminal the login fails (returns false) before any request to
send an auth code; with a terminal it requests the auth code via the email
channel, submits the typed code exactly once, and a not-found response makes
it return false without retrying code entry. -/
theorem c5_two_factor (env : LoginEnv)
    (h0 : env.sessionsNewServerError = false)
    (h1 : env.loginClientError = false)
    (h2 : env.redirection = "/sessions/two-factor") :
    (env.isatty = false →
      do_login env = ([.getSessionsNew, .postLogin], .returned false) ∧
      LoginReq.postSendAuthCode "email" ∉ (do_login env).1) ∧
    (env.isatty = true →
      (do_login env).1 =
        [.getSessionsNew, .postLogin, .postSendAuthCode "email",
          .postChallenge env.authCodeInput "email"] ∧
      (do_login env).1.count (.postChallenge env.authCodeInput "email") = 1 ∧
      (env.challengeNotFound = true → (do_login env).2 = .returned false)) := by
  constructor
  · intro hia
    unfold do_login
    rw [h0, h1, h2, hia]
    refine ⟨by simp, ?_⟩
    simp
  · intro hia
    unfold do_login
    rw [h0, h1, h2, hia]
    cases hnf : env.challengeNotFound <;>
      simp [List.count_cons, List.count_nil]

theorem c5_two_factor_witness :
    do_login ⟨false, false, "/sessions/two-factor", false, "", false⟩ =
      ([.getSessionsNew, .postLogin], .returned false) :=
  ((c5_two_factor ⟨false, false, "/sessions/two-factor", false, "", false⟩
    rfl rfl rfl).1 rfl).1

/-- C6: a `ClientError` on the login request makes `do_login` report the
failure by returning false after exactly the session-page GET and the one
login POST (no retry), and `main` then terminates with exit code 1. -/
theorem c6_login_failure (env : MainEnv)
    (h0 : env.login.sessionsNewServerError = false)
    (h1 : env.login.loginClientError = true) :
    do_login env.login = ([.getSessionsNew, .postLogin], .returned false) ∧
    (do_login env.login).1.count .postLogin = 1 ∧
    (mainRun env).outcome = .exitCode 1 := by
  have hdl : do_login env.login = ([.getSessionsNew, .postLogin], .returned false) := by
    unfold do_login
    rw [h0, h1]
    simp
  refine ⟨hdl, by rw [hdl]; decide, ?_⟩
  unfold mainRun mainBody
  rw [hdl]

theorem c6_login_failure_witness :
    (mainRun ⟨⟨false, true, "x", false, "", false⟩, [], [], none, "2024-01-01",
      ⟨none, "doc"⟩, [], [], false⟩).outcome = .exitCode 1 :=
  (c6_login_failure ⟨⟨false, true, "x", false, "", false⟩, [], [], none, "2024-01-01",
    ⟨none, "doc"⟩, [], [], false⟩ rfl rfl).2.2

/-- C7 counterexample: a run whose first poll iteration finds nothing and
whose second finds a slot fetches the booking catalog twice, refuting the
claim that catalog resolution happens exactly once per run before polling. -/
theorem c7_counterexample :
    (pollIterations [] "2024-01-01" ⟨none, "doc"⟩
        [(sampleDoc, [⟨none, [], none⟩]),
         (sampleDoc, [⟨none, [⟨["X"]⟩], none⟩])]).2 = (2, .found) ∧
    (2 : Nat) ≠ 1 := by
  decide

/-- C7 (amended): the motive, once resolved to a (nonzero) id stored on the
parsed args, stays the same across every subsequent poll iteration; but the
booking catalog is re-fetched — and the agenda set re-derived from it — on
every poll iteration: each executed iteration contributes exactly one
booking-page fetch, and every run that polls at all fetches it at least
once. -/
theorem c7_catalog_refetch (args : Args) (doc : BookingData) (inputs : List String)
    (script : List AvailResponse) (rest : List (BookingData × List AvailResponse))
    (sd : String) (m : Int) :
    (args.motive_id = some m → m ≠ 0 →
      (has_availability args doc inputs script sd).1 = args) ∧
    ((has_availability args doc inputs script sd).2.2 = .done false →
      (pollIterations inputs sd args ((doc, script) :: rest)).2.1 =
        (pollIterations inputs sd (has_availability args doc inputs script sd).1 rest).2.1
          + 1) ∧
    (pollIterations inputs sd args ((doc, script) :: rest)).2.1 ≥ 1 := by
  refine ⟨?_, ?_, ?_⟩
  · intro hm hm0
    obtain ⟨mid0, did0⟩ := args
    simp only at hm
    subst hm
    have hsel : selectMotive (some m) doc.visit_motives inputs = .selected m := by
      simp [selectMotive, pyTruthy, hm0]
    cases hp : get_practice doc with
    | none =>
      unfold has_availability
      rw [hp]
    | some pid =>
      unfold has_availability
      rw [hp]
      simp only [hsel]
      cases (pollLoop m (String.intercalate "-"
          (get_agenda_ids doc.agendas m (some pid))) pid sd script).2 <;> rfl
  · intro hdone
    rcases hha : has_availability args doc inputs script sd with ⟨a2, qs, outc⟩
    rw [hha] at hdone
    simp only at hdone
    subst hdone
    rw [pollIterations, hha]
  · rcases hha : has_availability args doc inputs script sd with ⟨a2, qs, outc⟩
    rw [pollIterations, hha]
    cases outc with
    | done b => cases b <;> simp
    | raisedNoMotives => simp
    | raisedIndexError => simp
    | blockedOnInput => simp
    | transportExhausted => simp

theorem c7_catalog_refetch_witness :
    (has_availability ⟨some 9, "doc"⟩ sampleDoc [] [] "2024-01-01").1 =
      ⟨some 9, "doc"⟩ :=
  (c7_catalog_refetch ⟨some 9, "doc"⟩ sampleDoc [] [] [] "2024-01-01" 9).1
    rfl (by decide)

/-- C9: on every exit path of `main` — a failure return (`exit code`) or an
exception propagating out of login, patient fetching, catalog resolution or
polling — the `finally` clause has saved the session state exactly once. -/
theorem c9_state_saved_on_exit (env : MainEnv) :
    (∀ n : Nat, (mainRun env).outcome = .exitCode n → (mainRun env).stateSaves = 1) ∧
    (∀ e : RunError, (mainRun env).outcome = .raised e → (mainRun env).stateSaves = 1) := by
  have houtcome : (mainRun env).outcome = mainBody env := rfl
  have hsaves : (mainRun env).stateSaves = if (mainBody env).exits then 1 else 0 := rfl
  constructor
  · intro n h
    rw [houtcome] at h
    rw [hsaves, h]
    rfl
  · intro e h
    rw [houtcome] at h
    rw [hsaves, h]
    rfl

theorem c9_state_saved_on_exit_witness :
    (mainRun ⟨⟨false, true, "y", false, "", false⟩, [], [], none, "2024-01-01",
      ⟨none, "doc"⟩, [], [], false⟩).stateSaves = 1 :=
  (c9_state_saved_on_exit ⟨⟨false, true, "y", false, "", false⟩, [], [], none,
    "2024-01-01", ⟨none, "doc"⟩, [], [], false⟩).1 1 rfl

theorem noDigitHead_nil : noDigitHead [] := by
  intro c hc
  simp at hc

theorem noDigitHead_cons (c : Char) (rest : List Char) (h : c.isDigit = false) :
    noDigitHead (c :: rest) := by
  intro d hd
  simp only [List.head?_cons, Option.some_inj] at hd
  subst hd
  exact h

theorem string_mk_data (s : String) : String.mk s.data = s := rfl

theorem escapeChar_quote : escapeChar quoteChar = [backslashChar, quoteChar] := by
  unfold escapeChar
  rw [if_pos rfl]

theorem escapeChar_backslash :
    escapeChar backslashChar = [backslashChar, backslashChar] := by
  unfold escapeChar
  rw [if_neg (by decide), if_pos rfl]

theorem escapeChar_other (c : Char) (h1 : c ≠ quoteChar) (h2 : c ≠ backslashChar) :
    escapeChar c = [c] := by
  unfold escapeChar
  rw [if_neg h1, if_neg h2]

theorem parseStringChars_quote (rest : List Char) :
    parseStringChars (quoteChar :: rest) = some ([], rest) := by
  unfold parseStringChars
  rw [if_pos rfl]

theorem parseStringChars_escape (e : Char) (rest : List Char)
    (he : e = quoteChar ∨ e = backslashChar) :
    parseStringChars (backslashChar :: e :: rest) =
      (parseStringChars rest).map fun p => (e :: p.1, p.2) := by
  have he2 : (e = quoteChar || e = backslashChar) = true := by
    rcases he with h | h <;> simp [h]
  cases hres : parseStringChars rest with
  | none =>
    unfold parseStringChars
    rw [if_neg (by decide), if_pos rfl]
    dsimp only
    rw [if_pos he2, hres]
    rfl
  | some p =>
    obtain ⟨cs, rem⟩ := p
    unfold parseStringChars
    rw [if_neg (by decide), if_pos rfl]
    dsimp only
    rw [if_pos he2, hres]
    rfl

theorem parseStringChars_raw (c : Char) (rest : List Char)
    (h1 : c ≠ quoteChar) (h2 : c ≠ backslashChar) :
    parseStringChars (c :: rest) =
      (parseStringChars rest).map fun p => (c :: p.1, p.2) := by
  cases hres : parseStringChars rest with
  | none =>
    unfold parseStringChars
    rw [if_neg h1, if_neg h2, hres]
    rfl
  | some p =>
    obtain ⟨cs, rem⟩ := p
    unfold parseStringChars
    rw [if_neg h1, if_neg h2, hres]
    rfl

theorem parseStringChars_roundtrip (cs rest : List Char) :
    parseStringChars (cs.flatMap escapeChar ++ quoteChar :: rest) = some (cs, rest) := by
  induction cs with
  | nil =>
    rw [List.flatMap_nil, List.nil_append]
    exact parseStringChars_quote rest
  | cons c cs ih =>
    rw [List.flatMap_cons, List.append_assoc]
    by_cases h1 : c = quoteChar
    · subst h1
      rw [escapeChar_quote]
      simp only [List.cons_append, List.nil_append]
      rw [parseStringChars_escape quoteChar _ (Or.inl rfl), ih]
      rfl
    · by_cases h2 : c = backslashChar
      · subst h2
        rw [escapeChar_backslash]
        simp only [List.cons_append, List.nil_append]
        rw [parseStringChars_escape backslashChar _ (Or.inr rfl), ih]
        rfl
      · rw [escapeChar_other c h1 h2]
        simp only [List.cons_append, List.nil_append]
        rw [parseStringChars_raw c _ h1 h2, ih]
        rfl

theorem digitChar_isDigit (d : Nat) (h : d < 10) : (digitChar d).isDigit = true := by
  interval_cases d <;> decide

theorem digitChar_toNat (d : Nat) (h : d < 10) : (digitChar d).toNat - 48 = d := by
  interval_cases d <;> decide

theorem natDigitsRev_all_digits (n : Nat) :
    ∀ c ∈ natDigitsRev n, c.isDigit = true := by
  induction n using Nat.strongRecOn with
  | _ n ih =>
    cases n with
    | zero =>
      intro c hc
      rw [natDigitsRev] at hc
      simp at hc
    | succ k =>
      intro c hc
      rw [natDigitsRev] at hc
      rcases List.mem_cons.mp hc with h | h
      · subst h
        exact digitChar_isDigit _ (Nat.mod_lt _ (by omega))
      · exact ih ((k + 1) / 10) (Nat.div_lt_self (by omega) (by omega)) c h

theorem parseNatChars_append_digit (xs : List Char) (d : Char) :
    parseNatChars (xs ++ [d]) = 10 * parseNatChars xs + (d.toNat - 48) := by
  unfold parseNatChars
  rw [List.foldl_append]
  rfl

theorem parseNatChars_natDigitsRev (n : Nat) :
    parseNatChars (natDigitsRev n).reverse = n := by
  induction n using Nat.strongRecOn with
  | _ n ih =>
    cases n with
    | zero =>
      rw [natDigitsRev]
      rfl
    | succ k =>
      rw [natDigitsRev, List.reverse_cons, parseNatChars_append_digit,
        ih ((k + 1) / 10) (Nat.div_lt_self (by omega) (by omega)),
        digitChar_toNat _ (Nat.mod_lt _ (by omega))]
      omega

theorem printNat_all_digits (n : Nat) : ∀ c ∈ printNat n, c.isDigit = true := by
  unfold printNat
  split
  · intro c hc
    simp only [List.mem_singleton] at hc
    subst hc
    decide
  · intro c hc
    exact natDigitsRev_all_digits n c (List.mem_reverse.mp hc)

theorem parseNatChars_printNat (n : Nat) : parseNatChars (printNat n) = n := by
  unfold printNat
  split
  · rename_i h
    subst h
    rfl
  · exact parseNatChars_natDigitsRev n

theorem printNat_ne_nil (n : Nat) : printNat n ≠ [] := by
  unfold printNat
  split
  · simp
  · rename_i h
    cases hn : n with
    | zero => exact absurd hn h
    | succ k =>
      rw [natDigitsRev]
      simp

theorem printInt_ne_nil (n : Int) : printInt n ≠ [] := by
  unfold printInt
  split
  · simp
  · exact printNat_ne_nil _

theorem takeWhile_dropWhile_append (p : Char → Bool) (xs ys : List Char)
    (hall : ∀ c ∈ xs, p c = true) (hy : ∀ c, ys.head? = some c → p c = false) :
    (xs ++ ys).takeWhile p = xs ∧ (xs ++ ys).dropWhile p = ys := by
  induction xs with
  | nil =>
    simp only [List.nil_append]
    cases ys with
    | nil => exact ⟨rfl, rfl⟩
    | cons y ys2 =>
      have hpy := hy y rfl
      rw [List.takeWhile_cons, List.dropWhile_cons, hpy]
      exact ⟨rfl, rfl⟩
  | cons x xs ih =>
    have hx := hall x (List.mem_cons_self x xs)
    obtain ⟨ht, hd⟩ := ih fun c hc => hall c (List.mem_cons_of_mem x hc)
    rw [List.cons_append, List.takeWhile_cons, List.dropWhile_cons, hx]
    simp only [if_true]
    exact ⟨by rw [ht], hd⟩

theorem parseNumber_printInt (n : Int) (rest : List Char) (h : noDigitHead rest) :
    parseNumber (printInt n ++ rest) = some (n, rest) := by
  by_cases hneg : n < 0
  · have hpr : printInt n = '-' :: printNat (-n).toNat := by
      unfold printInt
      rw [if_pos hneg]
    obtain ⟨ht, hd⟩ := takeWhile_dropWhile_append Char.isDigit
      (printNat (-n).toNat) rest (printNat_all_digits _) h
    rw [hpr, List.cons_append]
    unfold parseNumber
    dsimp only
    rw [if_pos rfl, ht, hd,
      if_neg (fun hh => printNat_ne_nil _ (List.isEmpty_iff.mp hh)),
      parseNatChars_printNat]
    have hnn : (((-n).toNat : Nat) : Int) = -n := Int.toNat_of_nonneg (by omega)
    rw [hnn]
    simp
  · have hpr : printInt n = printNat n.toNat := by
      unfold printInt
      rw [if_neg hneg]
    obtain ⟨c, cs, hc⟩ := List.exists_cons_of_ne_nil (printNat_ne_nil n.toNat)
    have hcd : c.isDigit = true := printNat_all_digits n.toNat c (by
      rw [hc]
      exact List.mem_cons_self _ _)
    obtain ⟨ht, hd⟩ := takeWhile_dropWhile_append Char.isDigit
      (printNat n.toNat) rest (printNat_all_digits _) h
    rw [hpr, hc, List.cons_append]
    unfold parseNumber
    dsimp only
    rw [if_neg (fun hh => by
      rw [hh] at hcd
      exact absurd hcd (by decide))]
    rw [← List.cons_append, ← hc, ht, hd,
      if_neg (fun hh => printNat_ne_nil _ (List.isEmpty_iff.mp hh)),
      parseNatChars_printNat]
    have hnn : ((n.toNat : Nat) : Int) = n := Int.toNat_of_nonneg (by omega)
    rw [hnn]

theorem jsonFuel_pos (j : Json) : 1 ≤ jsonFuel j := by
  cases j <;> rw [jsonFuel] <;> omega

theorem elemsFuel_pos (es : List Json) : 1 ≤ elemsFuel es := by
  cases es <;> rw [elemsFuel] <;> omega

theorem membersFuel_pos (ms : List (String × Json)) : 1 ≤ membersFuel ms := by
  cases ms <;> rw [membersFuel] <;> omega

mutual

theorem jsonFuel_le : ∀ j : Json, jsonFuel j ≤ 2 * (printJson j).length
  | .null => by
    rw [jsonFuel, printJson]
    decide
  | .bool true => by
    rw [jsonFuel, printJson]
    decide
  | .bool false => by
    rw [jsonFuel, printJson]
    decide
  | .num n => by
    rw [jsonFuel, printJson]
    obtain ⟨c, cs, hc⟩ := List.exists_cons_of_ne_nil (printInt_ne_nil n)
    rw [hc]
    simp only [List.length_cons]
    omega
  | .str s => by
    rw [jsonFuel, printJson]
    unfold printString
    simp only [List.length_cons, List.length_append]
    omega
  | .arr [] => by
    rw [jsonFuel, elemsFuel, printJson, printElems]
    decide
  | .arr (e :: es2) => by
    have h1 := jsonFuel_le e
    have h2 := elemsRestFuel_le es2
    rw [jsonFuel, elemsFuel, printJson, printElems]
    simp only [List.length_cons, List.length_append, List.length_nil]
    omega
  | .obj [] => by
    rw [jsonFuel, membersFuel, printJson, printMembers]
    decide
  | .obj ((k, v) :: ms2) => by
    have h1 := jsonFuel_le v
    have h2 := membersRestFuel_le ms2
    rw [jsonFuel, membersFuel, printJson, printMembers]
    unfold printMember
    simp only [List.length_cons, List.length_append, List.length_nil]
    omega

theorem elemsRestFuel_le :
    ∀ es : List Json, elemsFuel es ≤ 2 * (printElemsRest es).length + 1
  | [] => by
    rw [elemsFuel, printElemsRest]
    decide
  | j :: js => by
    have h1 := jsonFuel_le j
    have h2 := elemsRestFuel_le js
    rw [elemsFuel, printElemsRest]
    simp only [List.length_cons, List.length_append]
    omega

theorem membersRestFuel_le :
    ∀ ms : List (String × Json), membersFuel ms ≤ 2 * (printMembersRest ms).length + 1
  | [] => by
    rw [membersFuel, printMembersRest]
    decide
  | (k, v) :: ms => by
    have h1 := jsonFuel_le v
    have h2 := membersRestFuel_le ms
    rw [membersFuel, printMembersRest]
    unfold printMember
    simp only [List.length_cons, List.length_append]
    omega

end

theorem printJson_head (j : Json) :
    ∃ c cs, printJson j = c :: cs ∧ c ≠ ']' := by
  cases j with
  | null => exact ⟨'n', ['u', 'l', 'l'], by rw [printJson], by decide⟩
  | bool b =>
    cases b with
    | true => exact ⟨'t', ['r', 'u', 'e'], by rw [printJson], by decide⟩
    | false => exact ⟨'f', ['a', 'l', 's', 'e'], by rw [printJson], by decide⟩
  | num n =>
    by_cases hneg : n < 0
    · refine ⟨'-', printNat (-n).toNat, ?_, by decide⟩
      rw [printJson]
      unfold printInt
      rw [if_pos hneg]
    · obtain ⟨c, cs, hc⟩ := List.exists_cons_of_ne_nil (printNat_ne_nil n.toNat)
      have hcd := printNat_all_digits n.toNat c (by
        rw [hc]
        exact List.mem_cons_self _ _)
      refine ⟨c, cs, ?_, ?_⟩
      · rw [printJson]
        unfold printInt
        rw [if_neg hneg]
        exact hc
      · intro hh
        rw [hh] at hcd
        exact absurd hcd (by decide)
  | str s =>
    refine ⟨quoteChar, s.data.flatMap escapeChar ++ [quoteChar], ?_, by decide⟩
    rw [printJson]
    rfl
  | arr es => exact ⟨'[', printElems es ++ [']'], by rw [printJson], by decide⟩
  | obj ms => exact ⟨lbraceChar, printMembers ms ++ [rbraceChar], by rw [printJson], by decide⟩

theorem parseValue_quote_step (f : Nat) (tail : List Char) :
    parseValue (f + 1) (quoteChar :: tail) =
      (match parseStringChars tail with
       | none => none
       | some (cs, rem) => some (.str (String.mk cs), rem)) := rfl

theorem parseElems_succ (f : Nat) (input : List Char) :
    parseElems (f + 1) input =
      (match parseValue f input with
       | none => none
       | some (j, rem) =>
         match rem with
         | ',' :: rem2 =>
           (match parseElems f rem2 with
            | none => none
            | some (es, rem3) => some (j :: es, rem3))
         | ']' :: rem2 => some ([j], rem2)
         | _ => none) := rfl

theorem parseMembers_quote_step (f : Nat) (tail : List Char) :
    parseMembers (f + 1) (quoteChar :: tail) =
      (match parseStringChars tail with
       | none => none
       | some (k, rem) =>
         match rem with
         | ':' :: rem2 =>
           (match parseValue f rem2 with
            | none => none
            | some (v, rem3) =>
              match rem3 with
              | ',' :: rem4 =>
                (match parseMembers f rem4 with
                 | none => none
                 | some (ms, rem5) => some ((String.mk k, v) :: ms, rem5))
              | r :: rem4 =>
                if r = rbraceChar then some ([(String.mk k, v)], rem4) else none
              | [] => none)
         | _ => none) := rfl

theorem parseValue_succ_cons (f : Nat) (c : Char) (tail : List Char) :
    parseValue (f + 1) (c :: tail) =
      (if c = 'n' then
        match tail with
        | 'u' :: 'l' :: 'l' :: rem => some (.null, rem)
        | _ => none
      else if c = 't' then
        match tail with
        | 'r' :: 'u' :: 'e' :: rem => some (.bool true, rem)
        | _ => none
      else if c = 'f' then
        match tail with
        | 'a' :: 'l' :: 's' :: 'e' :: rem => some (.bool false, rem)
        | _ => none
      else if c = quoteChar then
        match parseStringChars tail with
        | none => none
        | some (cs, rem) => some (.str (String.mk cs), rem)
      else if c = '[' then
        match tail with
        | ']' :: rem => some (.arr [], rem)
        | _ =>
          match parseElems f tail with
          | none => none
          | some (es, rem) => some (.arr es, rem)
      else if c = lbraceChar then
        match tail with
        | [] => none
        | r :: rem2 =>
          if r = rbraceChar then some (.obj [], rem2)
          else
            match parseMembers f tail with
            | none => none
            | some (ms, rem) => some (.obj ms, rem)
      else
        match parseNumber (c :: tail) with
        | none => none
        | some (n, rem) => some (.num n, rem)) := rfl

theorem parseValue_number_step (f : Nat) (c : Char) (tail : List Char)
    (h1 : c ≠ 'n') (h2 : c ≠ 't') (h3 : c ≠ 'f') (h4 : c ≠ quoteChar)
    (h5 : c ≠ '[') (h6 : c ≠ lbraceChar) :
    parseValue (f + 1) (c :: tail) =
      (match parseNumber (c :: tail) with
       | none => none
       | some (n, rem) => some (.num n, rem)) := by
  rw [parseValue_succ_cons,
    if_neg h1, if_neg h2, if_neg h3, if_neg h4, if_neg h5, if_neg h6]

theorem parseValue_lbracket_step (f : Nat) (c : Char) (tail : List Char)
    (hc : c ≠ ']') :
    parseValue (f + 1) ('[' :: c :: tail) =
      (match parseElems f (c :: tail) with
       | none => none
       | some (es, rem) => some (.arr es, rem)) := by
  rw [parseValue_succ_cons, if_neg (by decide), if_neg (by decide),
    if_neg (by decide), if_neg (by decide), if_pos rfl]
  split
  · rename_i heq
    rw [List.cons_eq_cons] at heq
    exact absurd heq.1 hc
  · rfl

theorem parseValue_lbrace_step (f : Nat) (c : Char) (tail : List Char)
    (hc : c ≠ rbraceChar) :
    parseValue (f + 1) (lbraceChar :: c :: tail) =
      (match parseMembers f (c :: tail) with
       | none => none
       | some (ms, rem) => some (.obj ms, rem)) := by
  rw [parseValue_succ_cons, if_neg (by decide), if_neg (by decide),
    if_neg (by decide), if_neg (by decide), if_neg (by decide), if_pos rfl]
  dsimp only
  rw [if_neg hc]

theorem elems_step_comma (f : Nat) (e : Json) (rem2 : List Char) :
    (match (',' :: rem2 : List Char) with
     | ',' :: rem2 =>
       (match parseElems f rem2 with
        | none => none
        | some (es, rem3) => some (e :: es, rem3))
     | ']' :: rem2 => some ([e], rem2)
     | _ => none) =
      (match parseElems f rem2 with
       | none => none
       | some (es, rem3) => some (e :: es, rem3)) := rfl

theorem members_step_colon (f : Nat) (k : List Char) (rem2 : List Char) :
    (match (':' :: rem2 : List Char) with
     | ':' :: rem2 =>
       (match parseValue f rem2 with
        | none => none
        | some (v, rem3) =>
          match rem3 with
          | ',' :: rem4 =>
            (match parseMembers f rem4 with
             | none => none
             | some (ms, rem5) => some ((String.mk k, v) :: ms, rem5))
          | r :: rem4 =>
            if r = rbraceChar then some ([(String.mk k, v)], rem4) else none
          | [] => none)
     | _ => none) =
      (match parseValue f rem2 with
       | none => none
       | some (v, rem3) =>
         match rem3 with
         | ',' :: rem4 =>
           (match parseMembers f rem4 with
            | none => none
            | some (ms, rem5) => some ((String.mk k, v) :: ms, rem5))
         | r :: rem4 =>
           if r = rbraceChar then some ([(String.mk k, v)], rem4) else none
         | [] => none) := rfl

theorem members_step_value (f : Nat) (k : List Char) (v : Json) (rem3 : List Char) :
    (match (some (v, rem3) : Option (Json × List Char)) with
     | none => none
     | some (v, rem3) =>
       match rem3 with
       | ',' :: rem4 =>
         (match parseMembers f rem4 with
          | none => none
          | some (ms, rem5) => some ((String.mk k, v) :: ms, rem5))
       | r :: rem4 =>
         if r = rbraceChar then some ([(String.mk k, v)], rem4) else none
       | [] => none) =
      (match rem3 with
       | ',' :: rem4 =>
         (match parseMembers f rem4 with
          | none => none
          | some (ms, rem5) => some ((String.mk k, v) :: ms, rem5))
       | r :: rem4 =>
         if r = rbraceChar then some ([(String.mk k, v)], rem4) else none
       | [] => none) := rfl

theorem members_step_comma (f : Nat) (k : List Char) (v : Json) (rem4 : List Char) :
    (match (',' :: rem4 : List Char) with
     | ',' :: rem4 =>
       (match parseMembers f rem4 with
        | none => none
        | some (ms, rem5) => some ((String.mk k, v) :: ms, rem5))
     | r :: rem4 =>
       if r = rbraceChar then some ([(String.mk k, v)], rem4) else none
     | [] => none) =
      (match parseMembers f rem4 with
       | none => none
       | some (ms, rem5) => some ((String.mk k, v) :: ms, rem5)) := rfl

theorem members_step_rbrace (f : Nat) (k : List Char) (v : Json) (rem4 : List Char) :
    (match (rbraceChar :: rem4 : List Char) with
     | ',' :: rem4 =>
       (match parseMembers f rem4 with
        | none => none
        | some (ms, rem5) => some ((String.mk k, v) :: ms, rem5))
     | r :: rem4 =>
       if r = rbraceChar then some ([(String.mk k, v)], rem4) else none
     | [] => none) = some ([(String.mk k, v)], rem4) := rfl

theorem digit_ne_markers (c : Char) (h : c.isDigit = true) :
    c ≠ 'n' ∧ c ≠ 't' ∧ c ≠ 'f' ∧ c ≠ quoteChar ∧ c ≠ '[' ∧ c ≠ lbraceChar := by
  refine ⟨?_, ?_, ?_, ?_, ?_, ?_⟩ <;>
    exact fun hh => by
      rw [hh] at h
      exact absurd h (by decide)

theorem noDigitHead_printElemsRest (es : List Json) (rest : List Char) :
    noDigitHead (printElemsRest es ++ ']' :: rest) := by
  cases es with
  | nil =>
    rw [printElemsRest, List.nil_append]
    exact noDigitHead_cons _ _ (by decide)
  | cons e es2 =>
    rw [printElemsRest, List.cons_append]
    exact noDigitHead_cons _ _ (by decide)

theorem noDigitHead_printMembersRest (ms : List (String × Json)) (rest : List Char) :
    noDigitHead (printMembersRest ms ++ rbraceChar :: rest) := by
  cases ms with
  | nil =>
    rw [printMembersRest, List.nil_append]
    exact noDigitHead_cons _ _ (by decide)
  | cons m ms2 =>
    rw [printMembersRest, List.cons_append]
    exact noDigitHead_cons _ _ (by decide)

theorem parse_print_roundtrip (fuel : Nat) :
    (∀ (j : Json) (rest : List Char), jsonFuel j ≤ fuel → noDigitHead rest →
      parseValue fuel (printJson j ++ rest) = some (j, rest)) ∧
    (∀ (es : List Json) (rest : List Char), es ≠ [] → elemsFuel es ≤ fuel →
      parseElems fuel (printElems es ++ ']' :: rest) = some (es, rest)) ∧
    (∀ (ms : List (String × Json)) (rest : List Char), ms ≠ [] → membersFuel ms ≤ fuel →
      parseMembers fuel (printMembers ms ++ rbraceChar :: rest) = some (ms, rest)) := by
  induction fuel with
  | zero =>
    refine ⟨fun j rest hf _ => absurd hf (by have := jsonFuel_pos j; omega),
      fun es rest _ hf => absurd hf (by have := elemsFuel_pos es; omega),
      fun ms rest _ hf => absurd hf (by have := membersFuel_pos ms; omega)⟩
  | succ f ih =>
    obtain ⟨ihV, ihE, ihM⟩ := ih
    refine ⟨?_, ?_, ?_⟩
    · intro j rest hf hnd
      cases j with
      | null =>
        rw [printJson]
        rfl
      | bool b =>
        cases b <;> rw [printJson] <;> rfl
      | num n =>
        rw [printJson]
        obtain ⟨c, cs, hc⟩ := List.exists_cons_of_ne_nil (printInt_ne_nil n)
        have hmark : c ≠ 'n' ∧ c ≠ 't' ∧ c ≠ 'f' ∧ c ≠ quoteChar ∧
            c ≠ '[' ∧ c ≠ lbraceChar := by
          by_cases hneg : n < 0
          · have hcm : c = '-' := by
              have hpr : printInt n = '-' :: printNat (-n).toNat := by
                unfold printInt
                rw [if_pos hneg]
              rw [hpr] at hc
              exact ((List.cons_eq_cons.mp hc).1).symm
            subst hcm
            exact ⟨by decide, by decide, by decide, by decide, by decide, by decide⟩
          · have hpn : printInt n = printNat n.toNat := by
              unfold printInt
              rw [if_neg hneg]
            have hcd : c.isDigit = true := by
              apply printNat_all_digits n.toNat
              rw [← hpn, hc]
              exact List.mem_cons_self _ _
            exact digit_ne_markers c hcd
        rw [hc, List.cons_append,
          parseValue_number_step f c (cs ++ rest) hmark.1 hmark.2.1 hmark.2.2.1
            hmark.2.2.2.1 hmark.2.2.2.2.1 hmark.2.2.2.2.2,
          ← List.cons_append, ← hc, parseNumber_printInt n rest hnd]
      | str s =>
        rw [printJson]
        unfold printString
        rw [List.cons_append, List.append_assoc, List.singleton_append,
          parseValue_quote_step, parseStringChars_roundtrip]
      | arr es =>
        cases es with
        | nil =>
          rw [printJson, printElems]
          rfl
        | cons e es2 =>
          rw [jsonFuel, elemsFuel] at hf
          have hfe : jsonFuel e ≤ f := by
            have := elemsFuel_pos es2
            omega
          have hfes : elemsFuel (e :: es2) ≤ f := by
            rw [elemsFuel]
            have := jsonFuel_pos e
            have := elemsFuel_pos es2
            omega
          obtain ⟨c0, cs0, hc0, hcne⟩ := printJson_head e
          rw [printJson, printElems, List.cons_append, List.append_assoc,
            List.append_assoc, List.singleton_append, hc0, List.cons_append,
            parseValue_lbracket_step f c0 _ hcne,
            ← List.cons_append, ← hc0, ← List.append_assoc, ← printElems,
            ihE (e :: es2) rest (by simp) hfes]
      | obj ms =>
        cases ms with
        | nil =>
          rw [printJson, printMembers]
          rfl
        | cons m ms2 =>
          obtain ⟨k, v⟩ := m
          rw [jsonFuel, membersFuel] at hf
          dsimp only at hf
          have hfms : membersFuel ((k, v) :: ms2) ≤ f := by
            rw [membersFuel]
            dsimp only
            have := jsonFuel_pos v
            have := membersFuel_pos ms2
            omega
          rw [printJson, List.cons_append, List.append_assoc,
            List.singleton_append]
          have hpm : printMembers ((k, v) :: ms2) ++ rbraceChar :: rest =
              quoteChar :: ((k.data.flatMap escapeChar ++ [quoteChar]) ++
                (':' :: printJson v ++
                  (printMembersRest ms2 ++ rbraceChar :: rest))) := by
            rw [printMembers, printMember]
            unfold printString
            simp [List.append_assoc]
          rw [hpm, parseValue_lbrace_step f quoteChar _ (by decide), ← hpm,
            ihM ((k, v) :: ms2) rest (by simp) hfms]
    · intro es rest hne hf
      cases es with
      | nil => exact absurd rfl hne
      | cons e es2 =>
        rw [elemsFuel] at hf
        have hfe : jsonFuel e ≤ f := by
          have := elemsFuel_pos es2
          omega
        rw [printElems, List.append_assoc, parseElems_succ,
          ihV e (printElemsRest es2 ++ ']' :: rest) hfe
            (noDigitHead_printElemsRest es2 rest)]
        cases es2 with
        | nil =>
          rw [printElemsRest, List.nil_append]
          rfl
        | cons e2 es3 =>
          have hfes : elemsFuel (e2 :: es3) ≤ f := by
            have := jsonFuel_pos e
            omega
          rw [printElemsRest, List.cons_append]
          dsimp only
          rw [elems_step_comma, ← printElems,
            ihE (e2 :: es3) rest (by simp) hfes]
    · intro ms rest hne hf
      cases ms with
      | nil => exact absurd rfl hne
      | cons m ms2 =>
        obtain ⟨k, v⟩ := m
        rw [membersFuel] at hf
        dsimp only at hf
        have hfv : jsonFuel v ≤ f := by
          have := membersFuel_pos ms2
          omega
        have hshape : printMembers ((k, v) :: ms2) ++ rbraceChar :: rest =
            quoteChar :: (k.data.flatMap escapeChar ++ quoteChar ::
              (':' :: (printJson v ++
                (printMembersRest ms2 ++ rbraceChar :: rest)))) := by
          rw [printMembers, printMember]
          unfold printString
          simp [List.append_assoc]
        rw [hshape, parseMembers_quote_step, parseStringChars_roundtrip]
        dsimp only
        rw [members_step_colon,
          ihV v (printMembersRest ms2 ++ rbraceChar :: rest) hfv
            (noDigitHead_printMembersRest ms2 rest),
          members_step_value]
        cases ms2 with
        | nil =>
          rw [printMembersRest, List.nil_append, members_step_rbrace]
        | cons m2 ms3 =>
          have hfms : membersFuel (m2 :: ms3) ≤ f := by
            have := jsonFuel_pos v
            omega
          rw [printMembersRest, List.cons_append, members_step_comma,
            ← printMembers, ihM (m2 :: ms3) rest (by simp) hfms]

theorem parseJsonStr_printJsonStr (j : Json) :
    parseJsonStr (printJsonStr j) = some j := by
  unfold parseJsonStr printJsonStr
  have hdata : (String.mk (printJson j)).data = printJson j := rfl
  rw [hdata]
  have hfuel : jsonFuel j ≤ 2 * (printJson j).length + 2 := by
    have := jsonFuel_le j
    omega
  have hmain := (parse_print_roundtrip (2 * (printJson j).length + 2)).1 j []
    hfuel noDigitHead_nil
  rw [List.append_nil] at hmain
  rw [hmain]

/-- C8: saving any valid session-state blob (a JSON value; state blobs carry
no floats) through `save_state` and loading it back with `load_state` yields
an equal state — no field is lost; a missing state file loads as the empty
state rather than failing. -/
theorem c8_state_roundtrip (state : Json) (fs : Option String) :
    load_state (save_state fs state) = some state ∧
    load_state none = some (.obj []) := by
  constructor
  · unfold save_state load_state
    exact parseJsonStr_printJsonStr state
  · rfl

end Doctoshotgun
